/-
Verification of the trust-boundary core of the gotrue identity service:
claims-based authorization, audit-logged administrative mutation,
open-redirect-safe resolution of redirect targets, and the private-address
block list of the SSRF egress guard.

The definitions below are a shallow embedding of the Go source
(src/api/admin.go and the unnamed api utility file).  Strings are modelled
as Lean strings; the concrete inputs exercised by the claims are ASCII, so
byte-level and char-level processing coincide.  Machine integers are
modelled as Nat/Int with the explicit bound 2^63 where Go checks overflow.
Fallible Go code returns Option/Except; a Go panic (nil dereference) is
modelled as the value none.  Collaborators whose code is not part of the
repository (the models/storage/conf packages and the standard library) are
modelled either faithfully to their documented behavior or, where the spec
is the only authority, from the words of the spec; such definitions carry a
doc comment starting with "Modelled from the spec:".
-/
import Mathlib

set_option maxRecDepth 10000

/-! ## Character and list helpers -/

def isDigitCh (c : Char) : Bool := '0' ≤ c && c ≤ '9'

def isAlphaCh (c : Char) : Bool := ('a' ≤ c && c ≤ 'z') || ('A' ≤ c && c ≤ 'Z')

def isHexCh (c : Char) : Bool :=
  isDigitCh c || ('a' ≤ c && c ≤ 'f') || ('A' ≤ c && c ≤ 'F')

def hexVal (c : Char) : Nat :=
  if isDigitCh c then c.toNat - '0'.toNat
  else if 'a' ≤ c && c ≤ 'f' then c.toNat - 'a'.toNat + 10
  else c.toNat - 'A'.toNat + 10

/-- Go strings.HasPrefix(s, pre), on the char level. -/
def strHasPre (s pre : String) : Bool :=
  s.toList.take pre.toList.length == pre.toList

/-- Go strings.TrimSuffix(s, "/"): removes at most one trailing slash.
The structural recursion below removes exactly the final character when it
is a slash and keeps everything else, which is the same function. -/
def trimOneTrailingSlash : List Char → List Char
  | [] => []
  | [c] => if c = '/' then [] else [c]
  | c :: cs => c :: trimOneTrailingSlash cs

/-- Splits a char list at the first occurrence of sep.  Mirrors Go
net/url split(s, sep, cutc): when sep is absent the whole input is the
first component; cutc drops the separator from the second component. -/
def splitAtFirst (sep : Char) (cutc : Bool) : List Char → List Char × List Char
  | [] => ([], [])
  | c :: cs =>
    if c = sep then ([], if cutc then cs else c :: cs)
    else
      let r := splitAtFirst sep cutc cs
      (c :: r.1, r.2)

/-! ## Go time.ParseDuration

Embedding of the standard library duration parser used by the admin update
handler for the ban_duration field.  Durations are nanosecond counts; Go
works in uint64 with explicit overflow checks against 2^63, reproduced
here on Nat.  The fractional-part contribution, which Go computes in
float64, is modelled by exact truncating rational arithmetic; the two
agree on all inputs relevant to the claims. -/

def durationUnitNs (u : String) : Option Nat :=
  if u = "ns" then some 1
  else if u = "us" || u = "µs" || u = "μs" then some 1000
  else if u = "ms" then some 1000000
  else if u = "s" then some 1000000000
  else if u = "m" then some 60000000000
  else if u = "h" then some 3600000000000
  else none

/-- Go leadingInt: consume leading digits into an accumulator with the
overflow checks of the original; returns none on overflow. -/
def leadingIntAux : List Char → Nat → Option (Nat × List Char)
  | [], x => some (x, [])
  | c :: cs, x =>
    if isDigitCh c then
      if x > 2 ^ 63 / 10 then none
      else
        let x1 := x * 10 + (c.toNat - '0'.toNat)
        if x1 > 2 ^ 63 then none else leadingIntAux cs x1
    else some (x, c :: cs)

/-- Go leadingFraction: digits after the decimal point, with the scale
(a power of ten) accumulated alongside; on overflow further digits are
consumed but ignored, exactly as in the original. -/
def leadingFractionAux : List Char → Nat → Nat → Bool → Nat × Nat × List Char
  | [], x, scale, _ => (x, scale, [])
  | c :: cs, x, scale, overflow =>
    if isDigitCh c then
      if overflow then leadingFractionAux cs x scale overflow
      else if x > (2 ^ 63 - 1) / 10 then leadingFractionAux cs x scale true
      else
        let y := x * 10 + (c.toNat - '0'.toNat)
        if y > 2 ^ 63 then leadingFractionAux cs x scale true
        else leadingFractionAux cs y (scale * 10) overflow
    else (x, scale, c :: cs)

/-- One pass of the ParseDuration main loop: a number, an optional
fraction, and a unit, accumulated into d.  The fuel argument bounds the
recursion; each iteration strictly consumes input, so fuel equal to the
input length suffices. -/
def parseDurationLoop : Nat → List Char → Nat → Option Nat
  | 0, _, _ => none
  | _, [], d => some d
  | fuel + 1, s, d =>
    match s.head? with
    | none => some d
    | some c0 =>
      if ¬(c0 = '.' || isDigitCh c0) then none
      else
        match leadingIntAux s 0 with
        | none => none
        | some (v, s1) =>
          let pre := decide (s1.length ≠ s.length)
          let fsr :=
            match s1 with
            | '.' :: rest =>
              let r := leadingFractionAux rest 0 1 false
              (r.1, r.2.1, r.2.2, decide (r.2.2.length ≠ rest.length))
            | _ => (0, 1, s1, false)
          let f := fsr.1
          let scale := fsr.2.1
          let s2 := fsr.2.2.1
          let post := fsr.2.2.2
          if ¬pre && ¬post then none
          else
            let uchars := s2.takeWhile fun ch => ¬(ch = '.' || isDigitCh ch)
            let s3 := s2.dropWhile fun ch => ¬(ch = '.' || isDigitCh ch)
            if uchars = [] then none
            else
              match durationUnitNs (String.mk uchars) with
              | none => none
              | some unit =>
                if v > 2 ^ 63 / unit then none
                else
                  let v1 := v * unit
                  let v2 := if f > 0 then v1 + f * unit / scale else v1
                  if f > 0 && v2 > 2 ^ 63 then none
                  else
                    let d1 := d + v2
                    if d1 > 2 ^ 63 then none
                    else parseDurationLoop fuel s3 d1

/-- Go time.ParseDuration, returning the duration in nanoseconds, or none
where Go returns an error. -/
def parseDuration (s : String) : Option Int :=
  let cs := s.toList
  let signed : Bool × List Char :=
    match cs with
    | '-' :: rest => (true, rest)
    | '+' :: rest => (false, rest)
    | _ => (false, cs)
  let neg := signed.1
  let cs1 := signed.2
  if cs1 = ['0'] then some 0
  else if cs1 = [] then none
  else
    match parseDurationLoop (cs1.length + 1) cs1 0 with
    | none => none
    | some d =>
      if neg then some (-(d : Int))
      else if d > 2 ^ 63 - 1 then none
      else some (d : Int)

/-! ## Go net/url

Embedding of the parts of the standard net/url package reachable from the
redirect resolver: Parse, URL.String, URL.Hostname, and the escape
machinery they use.  Userinfo is kept in its raw form (the resolver never
renders URLs with userinfo); IPv6 zone handling inside bracketed hosts is
not elaborated.  Percent-escapes decode to the char of the escaped byte,
which coincides with Go byte-level processing on ASCII input. -/

structure GoURL where
  scheme : String := ""
  opq : String := ""
  userinfo : Option String := none
  host : String := ""
  path : String := ""
  rawPath : String := ""
  forceQuery : Bool := false
  rawQuery : String := ""
  fragment : String := ""
  rawFragment : String := ""
  deriving Repr, DecidableEq

deriving instance DecidableEq for Except

inductive EscMode where
  | path
  | host
  | fragment
  deriving Repr, DecidableEq

/-- Go shouldEscape(c, encodePath). -/
def shouldEscapePath (c : Char) : Bool :=
  if isAlphaCh c || isDigitCh c then false
  else if c = '-' || c = '_' || c = '.' || c = '~' then false
  else if c = '$' || c = '&' || c = '+' || c = ',' || c = '/' || c = ':' ||
          c = ';' || c = '=' || c = '?' || c = '@' then c = '?'
  else true

/-- Go shouldEscape(c, encodeHost). -/
def shouldEscapeHost (c : Char) : Bool :=
  if isAlphaCh c || isDigitCh c then false
  else if c = '!' || c = '$' || c = '&' || c.toNat = 39 || c = '(' || c = ')' ||
          c = '*' || c = '+' || c = ',' || c = ';' || c = '=' || c = ':' ||
          c = '[' || c = ']' || c = '<' || c = '>' || c = '"' then false
  else if c = '-' || c = '_' || c = '.' || c = '~' then false
  else true

/-- Go shouldEscape(c, encodeFragment). -/
def shouldEscapeFragment (c : Char) : Bool :=
  if isAlphaCh c || isDigitCh c then false
  else if c = '-' || c = '_' || c = '.' || c = '~' then false
  else if c = '$' || c = '&' || c = '+' || c = ',' || c = '/' || c = ':' ||
          c = ';' || c = '=' || c = '?' || c = '@' then false
  else if c = '!' || c = '(' || c = ')' || c = '*' then false
  else true

def shouldEscapeIn (mode : EscMode) (c : Char) : Bool :=
  match mode with
  | .path => shouldEscapePath c
  | .host => shouldEscapeHost c
  | .fragment => shouldEscapeFragment c

/-- Go unescape(s, mode): validates percent-escapes, rejects forbidden raw
host characters, and decodes.  Returns none exactly where Go returns an
error. -/
def unescapeGo (mode : EscMode) : List Char → Except String (List Char)
  | [] => .ok []
  | '%' :: rest =>
    match rest with
    | a :: b :: rest2 =>
      if isHexCh a && isHexCh b then
        if mode = EscMode.host && hexVal a < 8 && ¬(a = '2' && b = '5') then
          .error "invalid URL escape"
        else
          match unescapeGo mode rest2 with
          | .error e => .error e
          | .ok tail => .ok (Char.ofNat (16 * hexVal a + hexVal b) :: tail)
      else .error "invalid URL escape"
    | _ => .error "invalid URL escape"
  | c :: rest =>
    if mode = EscMode.host && c.toNat < 0x80 && shouldEscapeHost c then
      .error "invalid character in host name"
    else
      match unescapeGo mode rest with
      | .error e => .error e
      | .ok tail => .ok (c :: tail)

def upperHexDigit (n : Nat) : Char :=
  if n < 10 then Char.ofNat ('0'.toNat + n) else Char.ofNat ('A'.toNat + n - 10)

/-- Go escape(s, mode) on chars (byte-faithful for ASCII). -/
def escapeWith (f : Char → Bool) (cs : List Char) : List Char :=
  cs.flatMap fun c =>
    if f c then ['%', upperHexDigit (c.toNat / 16), upperHexDigit (c.toNat % 16)]
    else [c]

/-- Go validEncoded(s, mode): may s appear verbatim as an already-encoded
component in this mode. -/
def validEncoded (mode : EscMode) (cs : List Char) : Bool :=
  cs.all fun c =>
    if c = '!' || c = '$' || c = '&' || c.toNat = 39 || c = '(' || c = ')' ||
       c = '*' || c = '+' || c = ',' || c = ';' || c = '=' || c = ':' ||
       c = '@' then true
    else if c = '[' || c = ']' then true
    else if c = '%' then true
    else ¬ shouldEscapeIn mode c

/-- Go URL.setPath: decodes p into Path and records RawPath only when the
canonical re-encoding differs from p. -/
def setPathGo (p : List Char) : Except String (String × String) :=
  match unescapeGo EscMode.path p with
  | .error e => .error e
  | .ok decoded =>
    if escapeWith shouldEscapePath decoded = p then .ok (String.mk decoded, "")
    else .ok (String.mk decoded, String.mk p)

/-- Go URL.EscapedPath. -/
def escapedPath (u : GoURL) : List Char :=
  let raw := u.rawPath.toList
  if u.rawPath ≠ "" && validEncoded EscMode.path raw &&
      (match unescapeGo EscMode.path raw with
       | .ok d => String.mk d = u.path
       | .error _ => false) then
    raw
  else if u.path = "*" then ['*']
  else escapeWith shouldEscapePath u.path.toList

/-- Go URL.EscapedFragment. -/
def escapedFragment (u : GoURL) : List Char :=
  let raw := u.rawFragment.toList
  if u.rawFragment ≠ "" && validEncoded EscMode.fragment raw &&
      (match unescapeGo EscMode.fragment raw with
       | .ok d => String.mk d = u.fragment
       | .error _ => false) then
    raw
  else escapeWith shouldEscapeFragment u.fragment.toList

/-- Go URL.setFragment. -/
def setFragmentGo (u : GoURL) (f : List Char) : Except String GoURL :=
  match unescapeGo EscMode.fragment f with
  | .error e => .error e
  | .ok decoded =>
    if escapeWith shouldEscapeFragment decoded = f then
      .ok { u with fragment := String.mk decoded, rawFragment := "" }
    else
      .ok { u with fragment := String.mk decoded, rawFragment := String.mk f }

/-- Go validOptionalPort. -/
def validOptionalPort : List Char → Bool
  | [] => true
  | ':' :: ds => ds.all isDigitCh
  | _ => false

/-- Splits at the last occurrence of sep, dropping the separator; none
when sep is absent.  Mirrors the strings.LastIndexByte uses in net/url. -/
def splitAtLast (sep : Char) (cs : List Char) : Option (List Char × List Char) :=
  if cs.contains sep then
    let r := splitAtFirst sep true cs.reverse
    some (r.2.reverse, r.1.reverse)
  else none

/-- Go validUserinfo. -/
def validUserinfo (cs : List Char) : Bool :=
  cs.all fun c =>
    isAlphaCh c || isDigitCh c ||
    c = '-' || c = '.' || c = '_' || c = ':' || c = '~' || c = '!' ||
    c = '$' || c = '&' || c.toNat = 39 || c = '(' || c = ')' || c = '*' ||
    c = '+' || c = ',' || c = ';' || c = '=' || c = '%' || c = '@'

/-- Go parseHost: port validation then host unescaping. -/
def parseHostGo (host : List Char) : Except String String :=
  let portCheck : Except String Unit :=
    match host with
    | '[' :: _ =>
      match splitAtLast ']' host with
      | none => .error "missing right bracket in host"
      | some r => if validOptionalPort r.2 then .ok () else .error "invalid port after host"
    | _ =>
      match splitAtLast ':' host with
      | none => .ok ()
      | some r =>
        if validOptionalPort (':' :: r.2) then .ok () else .error "invalid port after host"
  match portCheck with
  | .error e => .error e
  | .ok _ =>
    match unescapeGo EscMode.host host with
    | .error e => .error e
    | .ok h => .ok (String.mk h)

/-- Go parseAuthority: optional userinfo before the last at-sign, then the
host.  The userinfo is kept raw after validation. -/
def parseAuthorityGo (authority : List Char) :
    Except String (Option String × String) :=
  match splitAtLast '@' authority with
  | none =>
    match parseHostGo authority with
    | .error e => .error e
    | .ok h => .ok (none, h)
  | some r =>
    match parseHostGo r.2 with
    | .error e => .error e
    | .ok h =>
      if ¬ validUserinfo r.1 then .error "net/url: invalid userinfo"
      else .ok (some (String.mk r.1), h)

/-- Go getScheme: splits a leading scheme at the first colon; a colon at
position zero is the "missing protocol scheme" error. -/
def getSchemeAux (orig : List Char) : List Char → Nat → Except String (List Char × List Char)
  | [], _ => .ok ([], orig)
  | c :: cs, i =>
    if isAlphaCh c then getSchemeAux orig cs (i + 1)
    else if isDigitCh c || c = '+' || c = '-' || c = '.' then
      if i = 0 then .ok ([], orig) else getSchemeAux orig cs (i + 1)
    else if c = ':' then
      if i = 0 then .error "missing protocol scheme"
      else .ok (orig.take i, cs)
    else .ok ([], orig)

/-- Go url.parse(rawURL, viaRequest=false): the fragment-free part. -/
def parseRawURL (raw : List Char) : Except String GoURL :=
  if raw.any (fun c => c.toNat < 0x20 || c.toNat = 0x7f) then
    .error "net/url: invalid control character in URL"
  else if raw = ['*'] then .ok { path := "*" }
  else
    match getSchemeAux raw raw 0 with
    | .error e => .error e
    | .ok sr =>
      let scheme := String.mk (sr.1.map Char.toLower)
      let rest0 := sr.2
      let qsplit :=
        if rest0.getLast? = some '?' && ¬ rest0.dropLast.contains '?' then
          (rest0.dropLast, true, ([] : List Char))
        else
          let r := splitAtFirst '?' true rest0
          (r.1, false, r.2)
      let rest := qsplit.1
      let forceQuery := qsplit.2.1
      let rawQuery := String.mk qsplit.2.2
      if rest.head? ≠ some '/' && scheme ≠ "" then
        .ok { scheme := scheme, opq := String.mk rest,
              forceQuery := forceQuery, rawQuery := rawQuery }
      else if rest.head? ≠ some '/' && (splitAtFirst '/' false rest).1.contains ':' then
        .error "first path segment in URL cannot contain colon"
      else
        let hasAuthority :=
          rest.take 2 = ['/', '/'] && (scheme ≠ "" || ¬(rest.take 3 = ['/', '/', '/']))
        if hasAuthority then
          let asplit := splitAtFirst '/' false (rest.drop 2)
          match parseAuthorityGo asplit.1 with
          | .error e => .error e
          | .ok uh =>
            match setPathGo asplit.2 with
            | .error e => .error e
            | .ok pr =>
              .ok { scheme := scheme, userinfo := uh.1, host := uh.2,
                    path := pr.1, rawPath := pr.2,
                    forceQuery := forceQuery, rawQuery := rawQuery }
        else
          match setPathGo rest with
          | .error e => .error e
          | .ok pr =>
            .ok { scheme := scheme, path := pr.1, rawPath := pr.2,
                  forceQuery := forceQuery, rawQuery := rawQuery }

/-- Go url.Parse: splits off the fragment, parses, sets the fragment. -/
def urlParse (s : String) : Except String GoURL :=
  let fs := splitAtFirst '#' true s.toList
  match parseRawURL fs.1 with
  | .error e => .error e
  | .ok u => if fs.2 = [] then .ok u else setFragmentGo u fs.2

/-- Go URL.Hostname: the host with a valid optional port stripped and
surrounding brackets removed. -/
def hostnameGo (u : GoURL) : String :=
  let h0 := u.host.toList
  let h1 :=
    match splitAtLast ':' h0 with
    | some r => if validOptionalPort (':' :: r.2) then r.1 else h0
    | none => h0
  let h2 :=
    match h1 with
    | '[' :: rest => if rest.getLast? = some ']' then rest.dropLast else h1
    | _ => h1
  String.mk h2

/-- Go URL.String. -/
def urlString (u : GoURL) : String :=
  let b1 : List Char := if u.scheme ≠ "" then u.scheme.toList ++ [':'] else []
  let body :=
    if u.opq ≠ "" then b1 ++ u.opq.toList
    else
      let b3 :=
        if u.scheme ≠ "" || u.host ≠ "" || u.userinfo.isSome then
          let b4 :=
            if u.host ≠ "" || u.path ≠ "" || u.userinfo.isSome then b1 ++ ['/', '/']
            else b1
          let b5 :=
            match u.userinfo with
            | some ui => b4 ++ ui.toList ++ ['@']
            | none => b4
          if u.host ≠ "" then b5 ++ escapeWith shouldEscapeHost u.host.toList else b5
        else b1
      let p := escapedPath u
      let b6 := if p ≠ [] && p.head? ≠ some '/' && u.host ≠ "" then b3 ++ ['/'] else b3
      let b7 :=
        if b6 = [] && p.contains ':' && ¬ (splitAtFirst ':' true p).1.contains '/' then
          b6 ++ ['.', '/']
        else b6
      b7 ++ p
  let withQuery :=
    if u.forceQuery || u.rawQuery ≠ "" then body ++ ['?'] ++ u.rawQuery.toList else body
  let withFrag :=
    if u.fragment ≠ "" then withQuery ++ ['#'] ++ escapedFragment u else withQuery
  String.mk withFrag

/-! ## Redirect resolver (source: the unnamed api utility file)

parseURL, isRedirectURLValid, getRedirectTo and getReferrer are the
repository functions under verification.  The allow-list map and its
compiled glob matchers are built by the conf package, which is not part of
the given sources. -/

/-- Normalization step inside parseURL: for http and https URLs the path
loses one trailing slash (strings.TrimSuffix(parsed.Path, "/")); other
schemes are left untouched. -/
def normalizeURL (u : GoURL) : GoURL :=
  if u.scheme = "https" || u.scheme = "http" then
    { u with path := String.mk (trimOneTrailingSlash u.path.toList) }
  else u

/-- Source parseURL: url.Parse followed by the trailing-slash
normalization of http(s) paths. -/
def parseURL (s : String) : Except String GoURL :=
  match urlParse s with
  | .error e => .error e
  | .ok parsed => .ok (normalizeURL parsed)

/-- Modelled from the spec: the conf package (absent from the sources)
pairs each allow-list URI with a compiled glob matcher; a glob pattern is
matched literally except that a star matches any character sequence. -/
def globMatchFuel : Nat → List Char → List Char → Bool
  | 0, _, _ => false
  | fuel + 1, pat, s =>
    match pat, s with
    | [], [] => true
    | [], _ :: _ => false
    | '*' :: ps, s =>
      globMatchFuel fuel ps s ||
        (match s with
         | [] => false
         | _ :: s1 => globMatchFuel fuel ('*' :: ps) s1)
    | _ :: _, [] => false
    | p :: ps, c :: cs => p == c && globMatchFuel fuel ps cs

/-- Glob matching; each recursive step shrinks pattern plus subject, so
the fuel below is enough for every input. -/
def globMatch (pat s : List Char) : Bool :=
  globMatchFuel (pat.length + s.length + 1) pat s

def globMatchStr (pat s : String) : Bool := globMatch pat.toList s.toList

/-- The slice of conf.Configuration read by the functions under
verification: SiteURL, URIAllowListMap (uri paired with its compiled
glob), JWT.Aud, JWT.AdminGroupName, PasswordMinLength. -/
structure Configuration where
  siteURL : String := ""
  uriAllowListMap : List (String × String) := []
  jwtAud : String := ""
  jwtAdminGroupName : String := ""
  passwordMinLength : Nat := 0
  deriving Repr, DecidableEq

/-- Source isRedirectURLValid.  The Go code computes
matchURL := refurl.String() before checking rerr; when url.Parse failed,
refurl is a nil pointer and String() dereferences it, so the function
panics instead of returning — modelled as none.  On the non-panicking
domain the result is some of the Go boolean.  The source tests
HasPrefix(uri, "http") or HasPrefix(uri, "https"); the second disjunct is
subsumed by the first and folded away here. -/
def isRedirectURLValid (config : Configuration) (redirectURL : String) : Option Bool :=
  if redirectURL = "" then some false
  else
    let bres := parseURL config.siteURL
    let rres := parseURL redirectURL
    match rres with
    | .error _ => none
    | .ok refurl =>
      let matchURL := urlString refurl
      let siteHostEq : Bool :=
        match bres with
        | .ok base => hostnameGo base == hostnameGo refurl
        | .error _ => false
      if siteHostEq then some true
      else
        some (config.uriAllowListMap.any fun p =>
          if strHasPre p.1 "http" then globMatchStr p.2 matchURL
          else redirectURL == p.1)

/-- The inputs of an inbound request read by the redirect resolver: the
redirect_to header value, whether r.ParseForm succeeds, the redirect_to
form value, and the Referer header. -/
structure GoRequest where
  redirectHeader : String := ""
  parseFormOk : Bool := true
  formRedirectTo : String := ""
  referer : String := ""
  deriving Repr, DecidableEq

/-- Source getRedirectTo: the header value when non-empty, else the form
value when the form parses, else the empty string. -/
def getRedirectTo (r : GoRequest) : String :=
  if r.redirectHeader ≠ "" then r.redirectHeader
  else if r.parseFormOk then r.formRedirectTo
  else ""

/-- Source getReferrer: first valid among the request redirect field and
the Referer header, with the configured site URL as terminal fallback.
A panic inside isRedirectURLValid propagates, so the result is an Option. -/
def getReferrer (config : Configuration) (r : GoRequest) : Option String :=
  let reqref := getRedirectTo r
  match isRedirectURLValid config reqref with
  | none => none
  | some true => some reqref
  | some false =>
    match isRedirectURLValid config r.referer with
    | none => none
    | some true => some r.referer
    | some false => some config.siteURL

/-! ## Private-address block list (source: init, isPrivateIP,
removeLocalhostFromPrivateIPBlock, unshiftPrivateIPBlock)

Embedding of the net package values the block list is built from.  An IP
is its byte list (4 or 16 bytes, as produced by net.ParseIP: textual IPv4
addresses become 16-byte IPv4-in-IPv6-mapped form); an IPNet is the
network-number bytes plus the mask bytes, exactly the value net.ParseCIDR
returns for the startup table entries. -/

structure IPNet where
  ip : List Nat
  mask : List Nat
  deriving Repr, DecidableEq

/-- Go net.CIDRMask(ones, bits) as a byte list. -/
def cidrMaskBytes : Nat → Nat → List Nat
  | _, 0 => []
  | ones, bits + 8 =>
    if ones ≥ 8 then 255 :: cidrMaskBytes (ones - 8) bits
    else if ones = 0 then 0 :: cidrMaskBytes 0 bits
    else (255 - 255 / 2 ^ ones) :: cidrMaskBytes 0 bits
  | _, _ => []

/-- Go net.IP.To4: a 4-byte address is itself; a 16-byte address in
IPv4-mapped form yields its last four bytes; anything else is none. -/
def ipTo4 (ip : List Nat) : Option (List Nat) :=
  if ip.length = 4 then some ip
  else if ip.length = 16 && (ip.take 10).all (· = 0) &&
          ip.get? 10 = some 255 && ip.get? 11 = some 255 then
    some (ip.drop 12)
  else none

/-- Go net.IPNet.Contains, including the networkNumberAndMask
normalization of mixed 4-byte and 16-byte forms. -/
def ipnetContains (n : IPNet) (ip : List Nat) : Bool :=
  let nn := match ipTo4 n.ip with
    | some x => x
    | none => n.ip
  let m :=
    if n.mask.length = 16 && nn.length = 4 then n.mask.drop 12 else n.mask
  let x := match ipTo4 ip with
    | some x => x
    | none => ip
  x.length = nn.length &&
    (List.range x.length).all fun i =>
      (nn.getD i 0).land (m.getD i 0) = (x.getD i 0).land (m.getD i 0)

/-- The ten startup CIDR blocks of the init function, as the numeric
values net.ParseCIDR produces for them, in table order. -/
def privateIPBlocksInit : List IPNet :=
  [ ⟨[127, 0, 0, 0], cidrMaskBytes 8 32⟩,      -- 127.0.0.0/8  IPv4 loopback
    ⟨[10, 0, 0, 0], cidrMaskBytes 8 32⟩,       -- 10.0.0.0/8   RFC1918
    ⟨[100, 64, 0, 0], cidrMaskBytes 10 32⟩,    -- 100.64.0.0/10 RFC6598
    ⟨[172, 16, 0, 0], cidrMaskBytes 12 32⟩,    -- 172.16.0.0/12 RFC1918
    ⟨[192, 0, 0, 0], cidrMaskBytes 24 32⟩,     -- 192.0.0.0/24 RFC6890
    ⟨[192, 168, 0, 0], cidrMaskBytes 16 32⟩,   -- 192.168.0.0/16 RFC1918
    ⟨[169, 254, 0, 0], cidrMaskBytes 16 32⟩,   -- 169.254.0.0/16 RFC3927
    ⟨[0, 0, 0, 0, 0, 0, 0, 0, 0, 0, 0, 0, 0, 0, 0, 1], cidrMaskBytes 128 128⟩, -- loopback
    ⟨[254, 128, 0, 0, 0, 0, 0, 0, 0, 0, 0, 0, 0, 0, 0, 0], cidrMaskBytes 10 128⟩, -- fe80::/10
    ⟨[252, 0, 0, 0, 0, 0, 0, 0, 0, 0, 0, 0, 0, 0, 0, 0], cidrMaskBytes 7 128⟩ ] -- fc00::/7

/-- Source isPrivateIP over an explicit block-list state. -/
def isPrivateIP (blocks : List IPNet) (ip : List Nat) : Bool :=
  blocks.any fun block => ipnetContains block ip

/-- Source removeLocalhostFromPrivateIPBlock.  The Go loop compares
stored *net.IPNet pointers against a freshly parsed localhost value; a
fresh pointer equals no stored one, so the loop never fires and the
zero-initialized localhostIndex removes the entry at index 0.  On the
startup table the loopback block sits at index 0, so the structural-match
semantics modelled here (the last structurally equal entry; default 0)
removes the same entry. -/
def removeLocalhostFromPrivateIPBlock (blocks : List IPNet) : List IPNet :=
  let localhost : IPNet := ⟨[127, 0, 0, 0], cidrMaskBytes 8 32⟩
  let localhostIndex :=
    (List.range blocks.length).foldl
      (fun acc i => if blocks.get? i = some localhost then i else acc) 0
  blocks.take localhostIndex ++ blocks.drop (localhostIndex + 1)

/-- Source unshiftPrivateIPBlock: prepend a block. -/
def unshiftPrivateIPBlock (address : IPNet) (blocks : List IPNet) : List IPNet :=
  address :: blocks

/-- net.ParseIP output for a dotted-quad address: 16-byte mapped form. -/
def v4mapped (a b c d : Nat) : List Nat :=
  [0, 0, 0, 0, 0, 0, 0, 0, 0, 0, 255, 255, a, b, c, d]

/-! ## Users, claims and the authorization resolver (source:
getUserFromClaims, isAdmin) -/

/-- The slice of models.User read and written by the functions under
verification.  Timestamps are abstract Int instants; metadata maps are
association lists. -/
structure User where
  id : String := ""
  instanceID : String := ""
  aud : String := ""
  role : String := ""
  email : String := ""
  phone : String := ""
  isSuperAdmin : Bool := false
  confirmedAt : Option Int := none
  phoneConfirmedAt : Option Int := none
  encryptedPassword : String := ""
  appMetaData : Option (List (String × String)) := none
  userMetaData : Option (List (String × String)) := none
  bannedUntil : Option Int := none
  deriving Repr, DecidableEq

/-- The claim fields read by the resolver. -/
structure GoClaims where
  subject : String := ""
  audience : String := ""
  deriving Repr, DecidableEq

/-- Modelled from the spec: the reserved system-user sentinel of the
models package (absent from the sources): the canonical string of the nil
UUID, models.SystemUserUUID.String(). -/
def systemUserUUIDString : String := "00000000-0000-0000-0000-000000000000"

/-- Modelled from the spec: the second sentinel spelling accepted for the
system user, models.SystemUserID. -/
def systemUserID : String := "0"

/-- Modelled from the spec: models.NewSystemUser — the synthetic system
user scoped to the tenant partition and the claim audience. -/
def newSystemUser (instanceID aud : String) : User :=
  { id := systemUserUUIDString, instanceID := instanceID, aud := aud,
    isSuperAdmin := true }

/-- The collaborator gofrs/uuid.FromString, restricted to the canonical
36-character form (the library also accepts braced, URN and 32-digit
spellings; the claims only distinguish parse success from failure). -/
def uuidFromString (s : String) : Option String :=
  let cs := s.toList
  if cs.length = 36 &&
      (List.range 36).all (fun i =>
        if i = 8 || i = 13 || i = 18 || i = 23 then cs.getD i ' ' == '-'
        else isHexCh (cs.getD i ' ')) then
    some (String.mk (cs.map Char.toLower))
  else none

/-- The error classes getUserFromClaims can produce: the three
errors.New messages of the source, and the not-found class of the storage
lookup. -/
inductive ResolveErr where
  | invalidToken
  | invalidClaimID
  | invalidUserID
  | notFound
  deriving Repr, DecidableEq

/-- The first three classes are the authorization failures of the claim;
notFound is the storage not-found failure. -/
def ResolveErr.isAuthFailure : ResolveErr → Bool
  | .invalidToken => true
  | .invalidClaimID => true
  | .invalidUserID => true
  | .notFound => false

/-- Modelled from the spec: models.FindUserByInstanceIDAndID — looks the
user up by tenant and id against an abstract storage content, failing
with the not-found error when no such user exists. -/
def findUserByInstanceIDAndID (lookup : String → String → Option User)
    (instanceID uid : String) : Except ResolveErr User :=
  match lookup instanceID uid with
  | some u => .ok u
  | none => .error .notFound

/-- Source getUserFromClaims.  The ambient context is made explicit: the
claims attached to the request (none when absent), the instance id of the
tenant, and the storage content behind the lookup collaborator. -/
def getUserFromClaims (claims : Option GoClaims) (instanceID : String)
    (lookup : String → String → Option User) : Except ResolveErr User :=
  match claims with
  | none => .error .invalidToken
  | some c =>
    if c.subject = "" then .error .invalidClaimID
    else if c.subject = systemUserUUIDString || c.subject = systemUserID then
      .ok (newSystemUser instanceID c.audience)
    else
      match uuidFromString c.subject with
      | none => .error .invalidUserID
      | some uid => findUserByInstanceIDAndID lookup instanceID uid

/-- Modelled from the spec: models.User.HasRole — the user data model
carries a single role field, so holding a role is equality with it. -/
def userHasRole (u : User) (r : String) : Bool := u.role == r

/-- Source isAdmin: the audience defaults to config.JWT.Aud when empty;
then super-admin, or matching audience plus the configured admin role. -/
def isAdmin (config : Configuration) (u : User) (aud : String) : Bool :=
  let aud1 := if aud = "" then config.jwtAud else aud
  u.isSuperAdmin || (aud1 == u.aud && userHasRole u config.jwtAdminGroupName)

/-! ## Audit-logged admin mutation executor (source: adminUserUpdate,
adminUserDelete)

The models-package sub-mutations and the storage transaction are
collaborators whose code is absent from the sources; they are modelled
from the spec, with an explicit fault oracle saying which storage
operations fail.  The state carries the stored user row, whether the row
is still present, and the audit log. -/

structure AdminUserParams where
  aud : String := ""
  role : String := ""
  email : String := ""
  phone : String := ""
  password : Option String := none
  emailConfirm : Bool := false
  phoneConfirm : Bool := false
  userMetaData : Option (List (String × String)) := none
  appMetaData : Option (List (String × String)) := none
  banDuration : String := ""
  deriving Repr, DecidableEq

structure AuditEntry where
  actorID : String := ""
  action : String := ""
  userID : String := ""
  userEmail : String := ""
  userPhone : String := ""
  deriving Repr, DecidableEq

/-- Modelled from the spec: the audit action kinds of the models package
for modified, deleted and signed-up users. -/
def UserModifiedAction : String := "user_modified"

/-- Modelled from the spec: the deleted-user audit action kind. -/
def UserDeletedAction : String := "user_deleted"

structure AdminState where
  user : User := {}
  userRowPresent : Bool := true
  audit : List AuditEntry := []
  deriving Repr, DecidableEq

/-- Which storage collaborator operations fail; false everywhere models a
healthy store. -/
structure StorageFaults where
  setRole : Bool := false
  confirm : Bool := false
  confirmPhone : Bool := false
  updatePassword : Bool := false
  setEmail : Bool := false
  setPhone : Bool := false
  updateAppMetaData : Bool := false
  updateUserMetaData : Bool := false
  updateBannedUntil : Bool := false
  auditInsert : Bool := false
  destroy : Bool := false
  deriving Repr, DecidableEq

inductive ApiError where
  | invalidPasswordLength
  | badRequest (msg : String)
  | internal (msg : String)
  | storage (op : String)
  deriving Repr, DecidableEq

/-- Modelled from the spec: models.User.SetRole — persists the role
field; the fault flag injects a storage failure. -/
def userSetRole (flt : Bool) (u : User) (r : String) : Except ApiError User :=
  if flt then .error (.storage "set_role") else .ok { u with role := r }

/-- Modelled from the spec: models.User.Confirm — marks the email
confirmed at the current instant. -/
def userConfirm (flt : Bool) (now : Int) (u : User) : Except ApiError User :=
  if flt then .error (.storage "confirm") else .ok { u with confirmedAt := some now }

/-- Modelled from the spec: models.User.ConfirmPhone. -/
def userConfirmPhone (flt : Bool) (now : Int) (u : User) : Except ApiError User :=
  if flt then .error (.storage "confirm_phone")
  else .ok { u with phoneConfirmedAt := some now }

/-- Modelled from the spec: the password-hashing collaborator, an
injective placeholder (hashing itself is out of scope). -/
def hashPassword (pw : String) : String := "hashed:" ++ pw

/-- Modelled from the spec: models.User.UpdatePassword — stores the hash
of the new password. -/
def userUpdatePassword (flt : Bool) (u : User) (pw : String) : Except ApiError User :=
  if flt then .error (.storage "update_password")
  else .ok { u with encryptedPassword := hashPassword pw }

/-- Modelled from the spec: models.User.SetEmail. -/
def userSetEmail (flt : Bool) (u : User) (e : String) : Except ApiError User :=
  if flt then .error (.storage "set_email") else .ok { u with email := e }

/-- Modelled from the spec: models.User.SetPhone. -/
def userSetPhone (flt : Bool) (u : User) (p : String) : Except ApiError User :=
  if flt then .error (.storage "set_phone") else .ok { u with phone := p }

/-- Modelled from the spec: applying a metadata update map to a stored
metadata map — new keys are appended, existing keys overwritten. -/
def mergeMetaData (old : Option (List (String × String)))
    (updates : List (String × String)) : Option (List (String × String)) :=
  match old with
  | none => some updates
  | some m =>
    some (updates.foldl
      (fun acc kv =>
        if acc.any (fun e => e.1 == kv.1) then
          acc.map fun e => if e.1 == kv.1 then kv else e
        else acc ++ [kv]) m)

/-- Modelled from the spec: models.User.UpdateAppMetaData. -/
def userUpdateAppMetaData (flt : Bool) (u : User)
    (m : List (String × String)) : Except ApiError User :=
  if flt then .error (.storage "update_app_meta_data")
  else .ok { u with appMetaData := mergeMetaData u.appMetaData m }

/-- Modelled from the spec: models.User.UpdateUserMetaData. -/
def userUpdateUserMetaData (flt : Bool) (u : User)
    (m : List (String × String)) : Except ApiError User :=
  if flt then .error (.storage "update_user_meta_data")
  else .ok { u with userMetaData := mergeMetaData u.userMetaData m }

/-- Modelled from the spec: models.User.UpdateBannedUntil — persists the
BannedUntil value already written into the user object. -/
def userUpdateBannedUntil (flt : Bool) (u : User) : Except ApiError User :=
  if flt then .error (.storage "update_banned_until") else .ok u

/-- Modelled from the spec: models.NewAuditLogEntry — appends one
immutable audit record holding the actor and a snapshot of the target
user's id, email and phone. -/
def newAuditLogEntry (flt : Bool) (actor : User) (action : String) (target : User)
    (audit : List AuditEntry) : Except ApiError (List AuditEntry) :=
  if flt then .error (.storage "audit_insert")
  else .ok (audit ++ [⟨actor.id, action, target.id, target.email, target.phone⟩])

/-- Source adminUserUpdate transaction body: the ordered conditional
sub-mutations, then the single audit insert of kind user-modified. -/
def adminUserUpdateTx (config : Configuration) (adminUser : User)
    (params : AdminUserParams) (now : Int) (flt : StorageFaults)
    (st : AdminState) : Except ApiError AdminState :=
  (if params.role ≠ "" then userSetRole flt.setRole st.user params.role
   else pure st.user) >>= fun u1 =>
  (if params.emailConfirm then userConfirm flt.confirm now u1 else pure u1) >>= fun u2 =>
  (if params.phoneConfirm then userConfirmPhone flt.confirmPhone now u2
   else pure u2) >>= fun u3 =>
  (match params.password with
   | some pw =>
     if pw.length < config.passwordMinLength then throw ApiError.invalidPasswordLength
     else userUpdatePassword flt.updatePassword u3 pw
   | none => pure u3) >>= fun u4 =>
  (if params.email ≠ "" then userSetEmail flt.setEmail u4 params.email
   else pure u4) >>= fun u5 =>
  (if params.phone ≠ "" then userSetPhone flt.setPhone u5 params.phone
   else pure u5) >>= fun u6 =>
  (match params.appMetaData with
   | some m => userUpdateAppMetaData flt.updateAppMetaData u6 m
   | none => pure u6) >>= fun u7 =>
  (match params.userMetaData with
   | some m => userUpdateUserMetaData flt.updateUserMetaData u7 m
   | none => pure u7) >>= fun u8 =>
  (if params.banDuration ≠ "" then
     (if params.banDuration = "none" then pure { u8 with bannedUntil := none }
      else
        match parseDuration params.banDuration with
        | none => throw (ApiError.badRequest "Invalid format for ban_duration")
        | some d => pure { u8 with bannedUntil := some (now + d) }) >>= fun ub =>
     userUpdateBannedUntil flt.updateBannedUntil ub
   else pure u8) >>= fun u9 =>
  newAuditLogEntry flt.auditInsert adminUser UserModifiedAction u9 st.audit >>= fun audit1 =>
  pure { st with user := u9, audit := audit1 }

/-- Modelled from the spec: storage.Connection.Transaction — the storage
collaborator commits the new state when the body succeeds and rolls the
state back unchanged when the body fails. -/
def connTransaction (st : AdminState)
    (body : AdminState → Except ApiError AdminState) : AdminState × Option ApiError :=
  match body st with
  | .ok st1 => (st1, none)
  | .error e => (st, some e)

/-- Source adminUserUpdate: the transaction around the body above.  The
post-transaction error reclassification of the source only rewraps the
returned error and does not touch storage, so it is not modelled. -/
def adminUserUpdate (config : Configuration) (adminUser : User)
    (params : AdminUserParams) (now : Int) (flt : StorageFaults)
    (st : AdminState) : AdminState × Option ApiError :=
  connTransaction st (adminUserUpdateTx config adminUser params now flt)

/-- The storage operations the delete transaction can attempt, recorded
in execution order alongside the state result. -/
inductive DbOp where
  | auditInsert
  | destroyUser
  deriving Repr, DecidableEq

/-- Source adminUserDelete transaction body: first the audit insert of
kind user-deleted, then tx.Destroy on the user row.  The second component
records which operations were attempted, in order. -/
def adminUserDeleteTx (adminUser : User) (flt : StorageFaults)
    (st : AdminState) : Except ApiError AdminState × List DbOp :=
  if flt.auditInsert then
    (.error (.internal "Error recording audit log entry"), [DbOp.auditInsert])
  else
    let st1 := { st with audit := st.audit ++
      [(⟨adminUser.id, UserDeletedAction, st.user.id, st.user.email, st.user.phone⟩ : AuditEntry)] }
    if flt.destroy then
      (.error (.internal "Database error deleting user"), [DbOp.auditInsert, DbOp.destroyUser])
    else
      (.ok { st1 with userRowPresent := false }, [DbOp.auditInsert, DbOp.destroyUser])

/-- Source adminUserDelete: the transaction around the body, keeping the
attempted-operation trace. -/
def adminUserDelete (adminUser : User) (flt : StorageFaults)
    (st : AdminState) : (AdminState × Option ApiError) × List DbOp :=
  let r := adminUserDeleteTx adminUser flt st
  (connTransaction st (fun _ => r.1), r.2)

/-! ## Claim-side predicates and fixtures

The following definitions restate, in the words of the specification, the
properties the redirect claims assert, so that the theorems can compare
them with the code; they are not translations of source code. -/

/-- The validity predicate exactly as the spec words it: non-empty AND
(hostname equals the site URL hostname, OR some allow-list entry matches:
http(s)-led entries as a glob against the normalized candidate, any other
entry by byte-exact equality with the raw candidate). -/
def claimValidRHS (cfg : Configuration) (r : String) : Bool :=
  if r = "" then false
  else
    (match parseURL cfg.siteURL, parseURL r with
     | .ok base, .ok u => hostnameGo base == hostnameGo u
     | _, _ => false) ||
    (cfg.uriAllowListMap.any fun p =>
      if strHasPre p.1 "http" then
        (match parseURL r with
         | .ok u => globMatchStr p.2 (urlString u)
         | .error _ => false)
      else r == p.1)

/-- The effective-redirect resolution exactly as the spec words it:
redirect field if valid, else referrer if valid, else the site URL; by
construction it never fails. -/
def claimEffectiveRedirect (cfg : Configuration) (r : GoRequest) : String :=
  let f := getRedirectTo r
  if claimValidRHS cfg f then f
  else if claimValidRHS cfg r.referer then r.referer
  else cfg.siteURL

def cfgAllowA : Configuration :=
  { siteURL := "https://site.example",
    uriAllowListMap := [("https://a.example/cb", "https://a.example/cb")] }

def cfgAllowM : Configuration :=
  { siteURL := "https://site.example",
    uriAllowListMap := [("myapp://callback", "myapp://callback")] }

def cfgTrusted : Configuration := { siteURL := "https://trusted.example" }

/-- A configuration whose allow list holds an entry byte-equal to an
unparseable candidate; the spec-side predicate validates the candidate,
the code faults on it. -/
def cfgCounterC2 : Configuration :=
  { siteURL := "https://site.example", uriAllowListMap := [("%zz", "%zz")] }

/-- The pure effect of the requested update sub-mutations, in the order
the spec lists them; comparing the transaction result against this
function states that every requested change is reflected. -/
def applyUserUpdates (params : AdminUserParams) (now : Int) (u0 : User) : User :=
  let u1 := if params.role ≠ "" then { u0 with role := params.role } else u0
  let u2 := if params.emailConfirm then { u1 with confirmedAt := some now } else u1
  let u3 := if params.phoneConfirm then { u2 with phoneConfirmedAt := some now } else u2
  let u4 :=
    match params.password with
    | some pw => { u3 with encryptedPassword := hashPassword pw }
    | none => u3
  let u5 := if params.email ≠ "" then { u4 with email := params.email } else u4
  let u6 := if params.phone ≠ "" then { u5 with phone := params.phone } else u5
  let u7 :=
    match params.appMetaData with
    | some m => { u6 with appMetaData := mergeMetaData u6.appMetaData m }
    | none => u6
  let u8 :=
    match params.userMetaData with
    | some m => { u7 with userMetaData := mergeMetaData u7.userMetaData m }
    | none => u7
  if params.banDuration ≠ "" then
    if params.banDuration = "none" then { u8 with bannedUntil := none }
    else
      match parseDuration params.banDuration with
      | some d => { u8 with bannedUntil := some (now + d) }
      | none => u8
  else u8

/-! ## Theorems -/

theorem exceptBind_ok {α β ε : Type} {x : Except ε α} {f : α → Except ε β} {b : β}
    (h : x >>= f = .ok b) : ∃ a, x = .ok a ∧ f a = .ok b := by
  cases x with
  | error e =>
    exact absurd h (by simp [Bind.bind, Except.bind])
  | ok a =>
    refine ⟨a, rfl, ?_⟩
    simpa only [Bind.bind, Except.bind] using h

/-- On every candidate whose parse succeeds, the code computes exactly the
boolean worded by the spec. -/
theorem isRedirectURLValid_parse_ok (cfg : Configuration) (r : String) (u : GoURL)
    (h : parseURL r = .ok u) :
    isRedirectURLValid cfg r = some (claimValidRHS cfg r) := by
  unfold isRedirectURLValid claimValidRHS
  by_cases hr : r = ""
  · simp [hr]
  · simp only [if_neg hr, h]
    cases hb : parseURL cfg.siteURL with
    | error e => simp
    | ok base =>
      by_cases hh : hostnameGo base == hostnameGo u
      · simp [hh]
      · simp [hh]

/-- C2: for every candidate redirect URL, isRedirectURLValid returns true
exactly when the candidate is non-empty and either shares the site URL
hostname or matches an allow-list entry (http(s)-led entries as a glob on
the normalized candidate, other entries byte-exactly) — amended: this
holds for every candidate whose URL parse succeeds; when parsing fails
the function faults instead of returning.  The concrete conjuncts settle
the two examples of the claim. -/
theorem C2_redirect_validity :
    (∀ (cfg : Configuration) (r : String), (parseURL r).isOk = true →
        (isRedirectURLValid cfg r = some true ↔ claimValidRHS cfg r = true)) ∧
    isRedirectURLValid cfgAllowA "https://a.example/cb" = some true ∧
    isRedirectURLValid cfgAllowA "https://a.example/cb/" = some true ∧
    isRedirectURLValid cfgAllowM "myapp://callback" = some true ∧
    isRedirectURLValid cfgAllowM "myapp://callback/" = some false := by
  refine ⟨?_, by decide, by decide, by decide, by decide⟩
  intro cfg r hok
  cases h : parseURL r with
  | error e => rw [h] at hok; simp [Except.isOk, Except.toBool] at hok
  | ok u =>
    rw [isRedirectURLValid_parse_ok cfg r u h]
    simp

/-- C2 counterexample: with the allow-list entry byte-equal to the
unparseable candidate, the claim as stated demands true, the code faults
(returns no boolean at all), so the stated equivalence is false at this
input. -/
theorem C2_counterexample :
    ¬(isRedirectURLValid cfgCounterC2 "%zz" = some true ↔
        claimValidRHS cfgCounterC2 "%zz" = true) := by decide

theorem C2_witness :
    isRedirectURLValid cfgAllowA "https://a.example/cb/" = some true :=
  (C2_redirect_validity.1 cfgAllowA "https://a.example/cb/" (by decide)).mpr (by decide)

/-- C10: isRedirectURLValid stringifies the parsed candidate before
checking the parse error; on any candidate whose parse fails, such as one
with an invalid percent-escape, the nil parse result is dereferenced and
the function faults instead of evaluating to a boolean, for every
configuration. -/
theorem C10_parse_failure_fault (cfg : Configuration) :
    isRedirectURLValid cfg "%zz" = none ∧ (parseURL "%zz").isOk = false := by
  exact ⟨rfl, by decide⟩

/-- C5: the effective redirect resolves in order (redirect field if
valid, else referrer if valid, else the site URL) — amended: the
resolution succeeds and follows this order whenever the redirect field
and referrer values are empty or URL-parseable; a non-empty unparseable
value makes the resolver fault through isRedirectURLValid instead of
degrading to the site URL.  The concrete conjuncts settle the two
examples of the claim. -/
theorem C5_effective_redirect :
    (∀ (cfg : Configuration) (r : GoRequest),
        (parseURL (getRedirectTo r)).isOk = true →
        (parseURL r.referer).isOk = true →
        getReferrer cfg r = some (claimEffectiveRedirect cfg r)) ∧
    getReferrer cfgTrusted { referer := "https://trusted.example/page" } =
      some "https://trusted.example/page" ∧
    getReferrer cfgTrusted {} = some "https://trusted.example" := by
  refine ⟨?_, by decide, by decide⟩
  intro cfg r h1 h2
  unfold getReferrer claimEffectiveRedirect
  cases hu1 : parseURL (getRedirectTo r) with
  | error e => rw [hu1] at h1; simp [Except.isOk, Except.toBool] at h1
  | ok u1 =>
    have e1 := isRedirectURLValid_parse_ok cfg (getRedirectTo r) u1 hu1
    cases hc1 : claimValidRHS cfg (getRedirectTo r) with
    | true => simp [e1, hc1]
    | false =>
      cases hu2 : parseURL r.referer with
      | error e => rw [hu2] at h2; simp [Except.isOk, Except.toBool] at h2
      | ok u2 =>
        have e2 := isRedirectURLValid_parse_ok cfg r.referer u2 hu2
        cases hc2 : claimValidRHS cfg r.referer with
        | true => simp [e1, e2, hc1, hc2]
        | false => simp [e1, e2, hc1, hc2]

/-- C5 counterexample: a non-empty unparseable redirect field makes
getReferrer fault, while the claim asserts the resolution never fails
and would here produce the site URL. -/
theorem C5_counterexample :
    getReferrer cfgTrusted { redirectHeader := "%zz" } ≠
      some (claimEffectiveRedirect cfgTrusted { redirectHeader := "%zz" }) := by decide

theorem C5_witness :
    getReferrer cfgTrusted { referer := "https://trusted.example/page" } =
      some "https://trusted.example/page" :=
  (C5_effective_redirect.1 cfgTrusted { referer := "https://trusted.example/page" }
      (by decide) (by decide)).trans (by decide)

theorem trimOneTrailingSlash_cons_cons (c d : Char) (ds : List Char) :
    trimOneTrailingSlash (c :: d :: ds) = c :: trimOneTrailingSlash (d :: ds) := rfl

theorem trimOneTrailingSlash_concat (p : List Char) :
    trimOneTrailingSlash (p ++ ['/']) = p := by
  induction p with
  | nil => rfl
  | cons c p ih =>
    cases hp : p ++ ['/'] with
    | nil => simp at hp
    | cons d ds =>
      rw [List.cons_append, hp, trimOneTrailingSlash_cons_cons, ← hp, ih]

theorem trimOneTrailingSlash_no_slash (p : List Char) (h : p.getLast? ≠ some '/') :
    trimOneTrailingSlash p = p := by
  induction p with
  | nil => rfl
  | cons c p ih =>
    cases p with
    | nil =>
      have hc : c ≠ '/' := by simpa using h
      simp [trimOneTrailingSlash, hc]
    | cons d ds =>
      rw [List.getLast?_cons_cons] at h
      rw [trimOneTrailingSlash_cons_cons, ih h]

theorem trimOneTrailingSlash_getLast (p : List Char) (h : ¬ (['/', '/'] <:+ p)) :
    (trimOneTrailingSlash p).getLast? ≠ some '/' := by
  rcases p.eq_nil_or_concat' with hnil | ⟨q, a, hq⟩
  · subst hnil; simp [trimOneTrailingSlash]
  · subst hq
    by_cases ha : a = '/'
    · subst ha
      rw [trimOneTrailingSlash_concat]
      intro hq1
      rcases q.eq_nil_or_concat' with hqnil | ⟨q1, b, hq1e⟩
      · subst hqnil; simp at hq1
      · subst hq1e
        rw [List.getLast?_concat] at hq1
        have hb : b = '/' := by simpa using hq1
        subst hb
        exact h ⟨q1, by simp⟩
    · rw [trimOneTrailingSlash_no_slash (q ++ [a]) (by rw [List.getLast?_concat]; simpa using ha)]
      rw [List.getLast?_concat]
      simpa using ha

theorem trimOneTrailingSlash_idem (p : List Char) (h : ¬ (['/', '/'] <:+ p)) :
    trimOneTrailingSlash (trimOneTrailingSlash p) = trimOneTrailingSlash p :=
  trimOneTrailingSlash_no_slash _ (trimOneTrailingSlash_getLast p h)

/-- C6: normalization strips exactly one trailing slash from the path of
an http/https URL, leaves non-http(s) URLs unchanged, and parseURL is
url.Parse followed by exactly this normalization — amended: normalizing
twice equals normalizing once only for URLs whose path does not end in
two slashes; on a path ending in two slashes a second normalization
removes a second slash. -/
theorem C6_normalization :
    (∀ (u : GoURL) (p : List Char),
        (u.scheme = "http" ∨ u.scheme = "https") → u.path.toList = p ++ ['/'] →
        (normalizeURL u).path.toList = p) ∧
    (∀ u : GoURL, (u.scheme = "http" ∨ u.scheme = "https") →
        u.path.toList.getLast? ≠ some '/' → normalizeURL u = u) ∧
    (∀ u : GoURL, u.scheme ≠ "http" → u.scheme ≠ "https" → normalizeURL u = u) ∧
    (∀ u : GoURL, ¬ (['/', '/'] <:+ u.path.toList) →
        normalizeURL (normalizeURL u) = normalizeURL u) ∧
    (∀ (s : String) (v : GoURL), urlParse s = .ok v → parseURL s = .ok (normalizeURL v)) := by
  refine ⟨?_, ?_, ?_, ?_, ?_⟩
  · intro u p hs hp
    have hcond : (u.scheme = "https" || u.scheme = "http") = true := by
      rcases hs with h | h <;> simp [h]
    simp only [normalizeURL, hcond, if_true]
    show trimOneTrailingSlash u.path.toList = p
    rw [hp, trimOneTrailingSlash_concat]
  · intro u hs hlast
    have hcond : (u.scheme = "https" || u.scheme = "http") = true := by
      rcases hs with h | h <;> simp [h]
    simp only [normalizeURL, hcond, if_true]
    rw [trimOneTrailingSlash_no_slash u.path.toList hlast]
    rfl
  · intro u h1 h2
    simp [normalizeURL, h1, h2]
  · intro u h
    by_cases hcond : (u.scheme = "https" || u.scheme = "http") = true
    · simp only [normalizeURL, hcond, if_true]
      show ({ u with path := String.mk (trimOneTrailingSlash
        (String.mk (trimOneTrailingSlash u.path.toList)).toList) } : GoURL) = _
      rw [show (String.mk (trimOneTrailingSlash u.path.toList)).toList =
            trimOneTrailingSlash u.path.toList from rfl,
          trimOneTrailingSlash_idem u.path.toList h]
    · have hcond1 : (u.scheme = "https" || u.scheme = "http") = false := by
        simpa using hcond
      simp [normalizeURL, hcond1]
  · intro s v h
    simp [parseURL, h]

/-- C6 counterexample: on the parseable URL with path of two slashes,
normalizing a second time changes the result, so normalization is not
idempotent as claimed. -/
theorem C6_counterexample :
    (parseURL "http://h//").map normalizeURL ≠ parseURL "http://h//" := by decide

theorem C6_witness :
    (normalizeURL { scheme := "http", path := "/cb/" }).path.toList = "/cb".toList :=
  C6_normalization.1 { scheme := "http", path := "/cb/" } "/cb".toList (Or.inl rfl) (by decide)

/-- C3: with the block list as populated by the startup table,
isPrivateIP holds on 127.0.0.1, 10.1.2.3, 172.16.0.5, 192.168.1.1,
169.254.169.254, ::1 and fe80::1, and fails on 8.8.8.8. -/
theorem C3_initial_block_list :
    isPrivateIP privateIPBlocksInit (v4mapped 127 0 0 1) = true ∧
    isPrivateIP privateIPBlocksInit (v4mapped 10 1 2 3) = true ∧
    isPrivateIP privateIPBlocksInit (v4mapped 172 16 0 5) = true ∧
    isPrivateIP privateIPBlocksInit (v4mapped 192 168 1 1) = true ∧
    isPrivateIP privateIPBlocksInit (v4mapped 169 254 169 254) = true ∧
    isPrivateIP privateIPBlocksInit [0, 0, 0, 0, 0, 0, 0, 0, 0, 0, 0, 0, 0, 0, 0, 1] = true ∧
    isPrivateIP privateIPBlocksInit
      [254, 128, 0, 0, 0, 0, 0, 0, 0, 0, 0, 0, 0, 0, 0, 1] = true ∧
    isPrivateIP privateIPBlocksInit (v4mapped 8 8 8 8) = false := by decide

/-- C9: after removing the loopback entry from the initial list,
127.0.0.1 is no longer private; and after prepending any custom range,
every address that range contains is immediately classified private. -/
theorem C9_block_list_amendments :
    isPrivateIP (removeLocalhostFromPrivateIPBlock privateIPBlocksInit)
      (v4mapped 127 0 0 1) = false ∧
    (∀ (blocks : List IPNet) (n : IPNet) (ip : List Nat),
        ipnetContains n ip = true →
        isPrivateIP (unshiftPrivateIPBlock n blocks) ip = true) := by
  refine ⟨by decide, ?_⟩
  intro blocks n ip h
  simp [isPrivateIP, unshiftPrivateIPBlock, h]

theorem C9_witness :
    isPrivateIP
      (unshiftPrivateIPBlock ⟨[169, 254, 169, 254], cidrMaskBytes 32 32⟩
        (removeLocalhostFromPrivateIPBlock privateIPBlocksInit))
      (v4mapped 169 254 169 254) = true :=
  C9_block_list_amendments.2 _ _ _ (by decide)

/-- C7: isAdmin holds exactly when the user is super-admin, or the
effective audience (the configured default when the caller passes the
empty string) equals the user audience and the user holds the configured
admin role; in particular super-admin alone suffices, and the admin role
with a mismatched audience does not. -/
theorem C7_isAdmin :
    ∀ (cfg : Configuration) (u : User) (aud : String),
      (isAdmin cfg u aud = true ↔
        (u.isSuperAdmin = true ∨
          ((if aud = "" then cfg.jwtAud else aud) = u.aud ∧
            u.role = cfg.jwtAdminGroupName))) ∧
      (u.isSuperAdmin = true → isAdmin cfg u aud = true) ∧
      (u.isSuperAdmin = false → (if aud = "" then cfg.jwtAud else aud) ≠ u.aud →
        isAdmin cfg u aud = false) := by
  intro cfg u aud
  refine ⟨?_, ?_, ?_⟩
  · unfold isAdmin userHasRole
    cases hsa : u.isSuperAdmin <;> by_cases ha : aud = "" <;> simp [ha, hsa, and_comm]
  · intro hsa; simp [isAdmin, hsa]
  · intro hsa hne
    by_cases ha : aud = "" <;> simp [ha] at hne <;> simp [isAdmin, userHasRole, hsa, ha, hne]

theorem C7_witness :
    isAdmin {} { isSuperAdmin := true } "other-audience" = true :=
  (C7_isAdmin {} { isSuperAdmin := true } "other-audience").2.1 rfl

/-- C8: resolving the acting user fails with an authorization error on
absent claims or an empty subject; a sentinel subject yields the
synthetic system user for the current tenant and claim audience with no
dependence on storage; otherwise the subject is parsed as a user id,
failing with an authorization error when malformed, and a well-formed
subject is looked up by tenant and id, failing with the not-found error
when absent. -/
theorem C8_resolve_actor :
    ∀ (instanceID : String) (lookup : String → String → Option User),
      (getUserFromClaims none instanceID lookup = .error .invalidToken ∧
        ResolveErr.invalidToken.isAuthFailure = true) ∧
      (∀ c : GoClaims, c.subject = "" →
        getUserFromClaims (some c) instanceID lookup = .error .invalidClaimID ∧
          ResolveErr.invalidClaimID.isAuthFailure = true) ∧
      (∀ c : GoClaims,
        (c.subject = systemUserUUIDString ∨ c.subject = systemUserID) →
        getUserFromClaims (some c) instanceID lookup =
            .ok (newSystemUser instanceID c.audience) ∧
          (∀ lookup2 : String → String → Option User,
            getUserFromClaims (some c) instanceID lookup2 =
              getUserFromClaims (some c) instanceID lookup)) ∧
      (∀ c : GoClaims, c.subject ≠ "" →
        c.subject ≠ systemUserUUIDString → c.subject ≠ systemUserID →
        uuidFromString c.subject = none →
        getUserFromClaims (some c) instanceID lookup = .error .invalidUserID ∧
          ResolveErr.invalidUserID.isAuthFailure = true) ∧
      (∀ (c : GoClaims) (uid : String), c.subject ≠ "" →
        c.subject ≠ systemUserUUIDString → c.subject ≠ systemUserID →
        uuidFromString c.subject = some uid →
        getUserFromClaims (some c) instanceID lookup =
          (match lookup instanceID uid with
           | some u => .ok u
           | none => .error ResolveErr.notFound)) := by
  intro instanceID lookup
  refine ⟨⟨rfl, rfl⟩, ?_, ?_, ?_, ?_⟩
  · intro c hc
    exact ⟨by simp [getUserFromClaims, hc], rfl⟩
  · intro c hc
    have hne : ¬ c.subject = "" := by
      rcases hc with h | h <;> rw [h] <;> simp [systemUserUUIDString, systemUserID]
    have hsys : (c.subject = systemUserUUIDString || c.subject = systemUserID) = true := by
      rcases hc with h | h <;> simp [h]
    constructor
    · simp [getUserFromClaims, hne, hsys]
    · intro lookup2
      simp [getUserFromClaims, hne, hsys]
  · intro c h1 h2 h3 h4
    refine ⟨?_, rfl⟩
    have hsys : (c.subject = systemUserUUIDString || c.subject = systemUserID) = false := by
      simp [h2, h3]
    simp [getUserFromClaims, h1, hsys, h4]
  · intro c uid h1 h2 h3 h4
    have hsys : (c.subject = systemUserUUIDString || c.subject = systemUserID) = false := by
      simp [h2, h3]
    simp [getUserFromClaims, h1, hsys, h4, findUserByInstanceIDAndID]

theorem C8_witness :
    getUserFromClaims (some { subject := "0", audience := "aud1" }) "inst1"
        (fun _ _ => none) = .ok (newSystemUser "inst1" "aud1") :=
  ((C8_resolve_actor "inst1" (fun _ _ => none)).2.2.1
    { subject := "0", audience := "aud1" } (Or.inr rfl)).1

theorem exceptPure_ok {α ε : Type} {a b : α} (h : (pure a : Except ε α) = .ok b) : a = b :=
  Except.ok.inj h

/-- Shape of a successful update transaction: the stored user is exactly
the pure application of every requested change, the row stays present,
the audit log gains exactly one user-modified entry snapshotting the
mutated user, and a non-empty ban duration was either the literal none or
parseable. -/
theorem adminUserUpdateTx_ok_cases (config : Configuration) (adminUser : User)
    (params : AdminUserParams) (now : Int) (flt : StorageFaults)
    (st st1 : AdminState)
    (h : adminUserUpdateTx config adminUser params now flt st = .ok st1) :
    st1.user = applyUserUpdates params now st.user ∧
    st1.userRowPresent = st.userRowPresent ∧
    st1.audit = st.audit ++
      [⟨adminUser.id, UserModifiedAction, st1.user.id, st1.user.email, st1.user.phone⟩] ∧
    (params.banDuration ≠ "" →
      params.banDuration = "none" ∨ ∃ d, parseDuration params.banDuration = some d) ∧
    (params.banDuration = "1h" →
      st1.user.bannedUntil = some (now + 3600000000000)) ∧
    (params.banDuration = "none" → st1.user.bannedUntil = none) := by
  unfold adminUserUpdateTx at h
  obtain ⟨u1, h1, h⟩ := exceptBind_ok h
  obtain ⟨u2, h2, h⟩ := exceptBind_ok h
  obtain ⟨u3, h3, h⟩ := exceptBind_ok h
  obtain ⟨u4, h4, h⟩ := exceptBind_ok h
  obtain ⟨u5, h5, h⟩ := exceptBind_ok h
  obtain ⟨u6, h6, h⟩ := exceptBind_ok h
  obtain ⟨u7, h7, h⟩ := exceptBind_ok h
  obtain ⟨u8, h8, h⟩ := exceptBind_ok h
  obtain ⟨u9, h9, h⟩ := exceptBind_ok h
  obtain ⟨audit1, hA, h⟩ := exceptBind_ok h
  have hst1 : st1 = { st with user := u9, audit := audit1 } := (exceptPure_ok h).symm
  have e1 : u1 = if params.role ≠ "" then { st.user with role := params.role } else st.user := by
    split at h1
    case isTrue hc =>
      unfold userSetRole at h1
      split at h1
      · cases h1
      · rw [if_pos hc]; exact (Except.ok.inj h1).symm
    case isFalse hc =>
      rw [if_neg hc]; exact (exceptPure_ok h1).symm
  have e2 : u2 = if params.emailConfirm then { u1 with confirmedAt := some now } else u1 := by
    split at h2
    case isTrue hc =>
      unfold userConfirm at h2
      split at h2
      · cases h2
      · rw [if_pos hc]; exact (Except.ok.inj h2).symm
    case isFalse hc =>
      rw [if_neg hc]; exact (exceptPure_ok h2).symm
  have e3 : u3 = if params.phoneConfirm then { u2 with phoneConfirmedAt := some now } else u2 := by
    split at h3
    case isTrue hc =>
      unfold userConfirmPhone at h3
      split at h3
      · cases h3
      · rw [if_pos hc]; exact (Except.ok.inj h3).symm
    case isFalse hc =>
      rw [if_neg hc]; exact (exceptPure_ok h3).symm
  have e4 : u4 = (match params.password with
      | some pw => { u3 with encryptedPassword := hashPassword pw }
      | none => u3) := by
    cases hp : params.password with
    | none => rw [hp] at h4; exact (exceptPure_ok h4).symm
    | some pw =>
      rw [hp] at h4
      have h4b : (if pw.length < config.passwordMinLength then
          (throw ApiError.invalidPasswordLength : Except ApiError User)
          else userUpdatePassword flt.updatePassword u3 pw) = Except.ok u4 := h4
      split at h4b
      · cases h4b
      · unfold userUpdatePassword at h4b
        split at h4b
        · cases h4b
        · exact (Except.ok.inj h4b).symm
  have e5 : u5 = if params.email ≠ "" then { u4 with email := params.email } else u4 := by
    split at h5
    case isTrue hc =>
      unfold userSetEmail at h5
      split at h5
      · cases h5
      · rw [if_pos hc]; exact (Except.ok.inj h5).symm
    case isFalse hc =>
      rw [if_neg hc]; exact (exceptPure_ok h5).symm
  have e6 : u6 = if params.phone ≠ "" then { u5 with phone := params.phone } else u5 := by
    split at h6
    case isTrue hc =>
      unfold userSetPhone at h6
      split at h6
      · cases h6
      · rw [if_pos hc]; exact (Except.ok.inj h6).symm
    case isFalse hc =>
      rw [if_neg hc]; exact (exceptPure_ok h6).symm
  have e7 : u7 = (match params.appMetaData with
      | some m => { u6 with appMetaData := mergeMetaData u6.appMetaData m }
      | none => u6) := by
    cases hm : params.appMetaData with
    | none => rw [hm] at h7; exact (exceptPure_ok h7).symm
    | some m =>
      rw [hm] at h7
      have h7b : userUpdateAppMetaData flt.updateAppMetaData u6 m = Except.ok u7 := h7
      unfold userUpdateAppMetaData at h7b
      split at h7b
      · cases h7b
      · exact (Except.ok.inj h7b).symm
  have e8 : u8 = (match params.userMetaData with
      | some m => { u7 with userMetaData := mergeMetaData u7.userMetaData m }
      | none => u7) := by
    cases hm : params.userMetaData with
    | none => rw [hm] at h8; exact (exceptPure_ok h8).symm
    | some m =>
      rw [hm] at h8
      have h8b : userUpdateUserMetaData flt.updateUserMetaData u7 m = Except.ok u8 := h8
      unfold userUpdateUserMetaData at h8b
      split at h8b
      · cases h8b
      · exact (Except.ok.inj h8b).symm
  have e9 : u9 = (if params.banDuration ≠ "" then
        if params.banDuration = "none" then { u8 with bannedUntil := none }
        else
          match parseDuration params.banDuration with
          | some d => { u8 with bannedUntil := some (now + d) }
          | none => u8
      else u8) ∧
      (params.banDuration ≠ "" →
        params.banDuration = "none" ∨ ∃ d, parseDuration params.banDuration = some d) := by
    by_cases hbd : params.banDuration ≠ ""
    · rw [if_pos hbd] at h9
      obtain ⟨ub, hub, h9a⟩ := exceptBind_ok h9
      unfold userUpdateBannedUntil at h9a
      split at h9a
      · cases h9a
      · have hu9 : ub = u9 := Except.ok.inj h9a
        by_cases hnone : params.banDuration = "none"
        · rw [if_pos hnone] at hub
          have hv := exceptPure_ok hub
          refine ⟨?_, fun _ => Or.inl hnone⟩
          rw [if_pos hbd, if_pos hnone, ← hu9, ← hv]
        · rw [if_neg hnone] at hub
          cases hp : parseDuration params.banDuration with
          | none => rw [hp] at hub; cases hub
          | some d =>
            rw [hp] at hub
            have hv := exceptPure_ok hub
            refine ⟨?_, fun _ => Or.inr ⟨d, rfl⟩⟩
            rw [if_pos hbd, if_neg hnone]
            exact (hv.trans hu9).symm
    · rw [if_neg hbd] at h9
      have hv := exceptPure_ok h9
      exact ⟨by rw [if_neg hbd, ← hv], fun hbd2 => absurd hbd2 hbd⟩
  have eA : audit1 = st.audit ++
      [⟨adminUser.id, UserModifiedAction, u9.id, u9.email, u9.phone⟩] := by
    unfold newAuditLogEntry at hA
    split at hA
    · cases hA
    · exact (Except.ok.inj hA).symm
  subst hst1
  refine ⟨?_, rfl, ?_, e9.2, ?_, ?_⟩
  · show u9 = applyUserUpdates params now st.user
    rw [e9.1, e8, e7, e6, e5, e4, e3, e2, e1]
    simp only [applyUserUpdates]
  · show audit1 = _
    exact eA
  · intro h1h
    show u9.bannedUntil = _
    rw [e9.1, h1h]
    rw [if_pos (by decide : ("1h" : String) ≠ ""),
        if_neg (by decide : ¬ ("1h" : String) = "none"),
        show parseDuration "1h" = some 3600000000000 from by decide]
  · intro hn
    show u9.bannedUntil = _
    rw [e9.1, hn]
    rw [if_pos (by decide : ("none" : String) ≠ ""), if_pos rfl]

/-- C1: a successful admin update transaction reflects every requested
change in the stored user (in particular ban duration 1h sets the ban
expiry to now plus one hour and the literal none clears it) and appends
exactly one user-modified audit entry; an unparseable non-empty ban
duration makes the transaction body fail; and whenever the body fails the
transaction leaves the state — user record and audit log — unchanged. -/
theorem C1_admin_update_atomic :
    ∀ (config : Configuration) (adminUser : User) (params : AdminUserParams)
      (now : Int) (flt : StorageFaults) (st st1 : AdminState),
      (adminUserUpdateTx config adminUser params now flt st = .ok st1 →
        st1.user = applyUserUpdates params now st.user ∧
        st1.audit = st.audit ++
          [⟨adminUser.id, UserModifiedAction, st1.user.id, st1.user.email, st1.user.phone⟩] ∧
        (params.banDuration = "1h" →
          st1.user.bannedUntil = some (now + 3600000000000)) ∧
        (params.banDuration = "none" → st1.user.bannedUntil = none)) ∧
      (params.banDuration ≠ "" → params.banDuration ≠ "none" →
        parseDuration params.banDuration = none →
        ∃ e, adminUserUpdateTx config adminUser params now flt st = .error e) ∧
      (∀ e, adminUserUpdateTx config adminUser params now flt st = .error e →
        adminUserUpdate config adminUser params now flt st = (st, some e)) := by
  intro config adminUser params now flt st st1
  refine ⟨?_, ?_, ?_⟩
  · intro h
    obtain ⟨hu, hrow, haud, hside, hban1, hban2⟩ :=
      adminUserUpdateTx_ok_cases config adminUser params now flt st st1 h
    exact ⟨hu, haud, hban1, hban2⟩
  · intro hbd hnone hp
    cases htx : adminUserUpdateTx config adminUser params now flt st with
    | error e => exact ⟨e, rfl⟩
    | ok st2 =>
      obtain ⟨_, _, _, hside, _, _⟩ :=
        adminUserUpdateTx_ok_cases config adminUser params now flt st st2 htx
      rcases hside hbd with hN | ⟨d, hd⟩
      · exact absurd hN hnone
      · rw [hp] at hd; cases hd
  · intro e he
    unfold adminUserUpdate connTransaction
    rw [he]

theorem C1_witness :
    adminUserUpdate {} {} { banDuration := "zzz" } 0 {} {} =
      ({}, some (ApiError.badRequest "Invalid format for ban_duration")) := by
  have h : adminUserUpdateTx {} {} { banDuration := "zzz" } 0 {} {} =
      .error (ApiError.badRequest "Invalid format for ban_duration") := by decide
  exact (C1_admin_update_atomic {} {} { banDuration := "zzz" } 0 {} {} {}).2.2 _ h

/-- C4: in the delete transaction the audit insert of kind user-deleted
always runs first — the destroy is only ever attempted after it — and
when the audit insert fails the destroy is never attempted and the
rolled-back state, user row included, is unchanged; when both operations
succeed the audit log gains the user-deleted entry and the row is gone. -/
theorem C4_admin_delete_audit_first :
    ∀ (adminUser : User) (flt : StorageFaults) (st : AdminState),
      (DbOp.destroyUser ∈ (adminUserDelete adminUser flt st).2 →
        (adminUserDelete adminUser flt st).2 = [DbOp.auditInsert, DbOp.destroyUser]) ∧
      (flt.auditInsert = true →
        (adminUserDelete adminUser flt st).2 = [DbOp.auditInsert] ∧
        (adminUserDelete adminUser flt st).1.1 = st) ∧
      (flt.auditInsert = false → flt.destroy = false →
        (adminUserDelete adminUser flt st).1.1.audit =
          st.audit ++
            [⟨adminUser.id, UserDeletedAction, st.user.id, st.user.email, st.user.phone⟩] ∧
        (adminUserDelete adminUser flt st).1.1.userRowPresent = false) ∧
      (flt.auditInsert = false → flt.destroy = true →
        (adminUserDelete adminUser flt st).1.1 = st) := by
  intro adminUser flt st
  by_cases ha : flt.auditInsert <;> by_cases hd : flt.destroy <;>
    simp [adminUserDelete, adminUserDeleteTx, connTransaction, ha, hd]

theorem C4_witness :
    (adminUserDelete {} { auditInsert := true } {}).1.1 = ({} : AdminState) :=
  ((C4_admin_delete_audit_first {} { auditInsert := true } {}).2.1 rfl).2
